import Mathlib

/-!
A verification development for the Vero-Bot reminder engine
(`src/bot.py`, `src/utils.py`, `src/config.py`).

Conventions of the shallow embedding:

* Instants are integers: UTC seconds for the sweep/task model, and UTC
  **minutes** for the wall-clock round-trip model (the bot's displayed
  and parsed wall clocks carry minute precision, `'%Y-%m-%d %H:%M'`).
  Differences of aware datetimes in Python are timezone-independent, so
  modelling instants as integers is faithful.
* A naive wall-clock string `YYYY-MM-DD HH:MM` is a bijective image of
  its minute count, so wall clocks are also modelled as integers.
* MongoDB documents become Lean structures; `$addToSet` becomes
  `addToSet` below (append-if-absent, as Mongo appends to the array end).
* The notification sink (Discord channel resolution and `channel.send`)
  is modelled by a `DeliveryEnv`: whether a channel was resolved and
  whether `send` succeeds.  `send_reminder_for_task` catches a failing
  `send` internally (`try/except` around `channel.send`), so it returns
  normally in every delivery-failure scenario; this is modelled by the
  per-item evaluation never aborting on delivery failure.
-/

namespace VeroBot

/-- A custom reminder entry, from the documents built in `setreminder`
(`src/bot.py`): `{'time': reminder_time, 'sent': False, 'created_by': user_id}`. -/
structure CustomReminder where
  time : Int
  sent : Bool
  created_by : Nat
  deriving DecidableEq, Repr

/-- A task document, from the document built in `add` (`src/bot.py`).
`deadline`/`created_at` are UTC seconds, `status` is the completion flag,
`reminders_sent` the list of standard labels already fired. -/
structure Task where
  id : String
  user_id : Nat
  guild_id : Option Nat
  judul : String
  deskripsi : Option String
  deadline : Int
  status : Bool
  created_at : Int
  reminders_sent : List String
  tag : String
  assigned_users : List Nat
  custom_reminders : List CustomReminder
  deriving DecidableEq, Repr

/-- `REMINDER_THRESHOLDS = [72, 24, 5]` from `src/config.py`. -/
def REMINDER_THRESHOLDS : List Nat := [72, 24, 5]

/-- The label `f'rem_{th}h'` used in `check_reminders` (`src/bot.py`). -/
def threshLabel (th : Nat) : String := "rem_" ++ toString th ++ "h"

/-- MongoDB `$addToSet`: append the value to the array end unless already present
(used by `mark_reminder_sent_async` in `src/bot.py`). -/
def addToSet (l : String) (s : List String) : List String :=
  if l ∈ s then s else s ++ [l]

/-- The state of the external notification sink for one delivery attempt:
whether a channel could be resolved (configured channel, system channel or
first writable channel), and whether `channel.send` runs without raising. -/
structure DeliveryEnv where
  channelFound : Bool
  sendOk : Bool
  deriving DecidableEq, Repr

/-- A message actually reaches the channel exactly when a channel was
resolved and `channel.send` did not raise. -/
def delivered (env : DeliveryEnv) : Bool := env.channelFound && env.sendOk

/-- Observable actions of one sweep tick on one task, in execution order.
`emitThreshold`/`emitDue`/`emitCustom` record a notification attempt with its
delivery outcome; `deleteTask` records the auto-expiry deletion. -/
inductive SweepEvent where
  | emitThreshold (taskId : String) (th : Nat) (delivered : Bool)
  | emitDue (taskId : String) (delivered : Bool)
  | deleteTask (taskId : String)
  | emitCustom (taskId : String) (idx : Nat) (delivered : Bool)
  deriving DecidableEq, Repr

/-- The pre-deadline threshold loop of `check_reminders` (`src/bot.py`):
for each `th` whose label is not in the *snapshot* `t.reminders_sent`, if
`target_seconds - 90 <= seconds_left <= target_seconds + 90`, the reminder is
sent (`send_reminder_for_task` returns normally even on delivery failure) and
the label is persisted with `$addToSet`.  Returns the emitted events and the
accumulated persisted label list (threaded through `labels`). -/
def runThresholds (env : DeliveryEnv) (now : Int) (t : Task) :
    List Nat → List String → List SweepEvent × List String
  | [], labels => ([], labels)
  | th :: rest, labels =>
    if threshLabel th ∈ t.reminders_sent then
      runThresholds env now t rest labels
    else
      if (th : Int) * 3600 - 90 ≤ t.deadline - now ∧ t.deadline - now ≤ (th : Int) * 3600 + 90 then
        let r := runThresholds env now t rest (addToSet (threshLabel th) labels)
        (SweepEvent.emitThreshold t.id th (delivered env) :: r.1, r.2)
      else
        runThresholds env now t rest labels

/-- The custom-reminder loop of `check_reminders` (`src/bot.py`): for each
entry not yet `sent`, if `-90 <= now - time <= 90` the notification is
attempted.  The whole body is one `try`: when a resolved channel's `send`
raises, the exception is caught *after* the send, so the `sent` flag is not
persisted; when no channel is resolved (`if channel:` falsy) or the send
succeeds, the flag is set.  Returns emitted events and the updated entries. -/
def runCustoms (env : DeliveryEnv) (now : Int) (tid : String) :
    List CustomReminder → Nat → List SweepEvent × List CustomReminder
  | [], _ => ([], [])
  | r :: rest, idx =>
    if r.sent then
      let res := runCustoms env now tid rest (idx + 1)
      (res.1, r :: res.2)
    else
      if (-90 : Int) ≤ now - r.time ∧ now - r.time ≤ 90 then
        let res := runCustoms env now tid rest (idx + 1)
        (SweepEvent.emitCustom tid idx (delivered env) :: res.1,
          (if env.channelFound && !env.sendOk then r else { r with sent := true }) :: res.2)
      else
        let res := runCustoms env now tid rest (idx + 1)
        (res.1, r :: res.2)

/-- Events of the threshold block for one task. -/
def thresholdEvents (env : DeliveryEnv) (now : Int) (t : Task) : List SweepEvent :=
  (runThresholds env now t REMINDER_THRESHOLDS t.reminders_sent).1

/-- Persisted labels after the threshold block for one task. -/
def thresholdLabels (env : DeliveryEnv) (now : Int) (t : Task) : List String :=
  (runThresholds env now t REMINDER_THRESHOLDS t.reminders_sent).2

/-- The due block of `check_reminders`: `if seconds_left <= 0 and 'rem_due'
not in tdoc.get('reminders_sent', [])`, one due notification. -/
def dueEvents (env : DeliveryEnv) (now : Int) (t : Task) : List SweepEvent :=
  if t.deadline - now ≤ 0 ∧ "rem_due" ∉ t.reminders_sent then
    [SweepEvent.emitDue t.id (delivered env)]
  else []

/-- The task's persisted `reminders_sent` after the threshold and due blocks
of one tick (the due label is added with `$addToSet` when the due fires). -/
def sweepLabels (env : DeliveryEnv) (now : Int) (t : Task) : List String :=
  if t.deadline - now ≤ 0 ∧ "rem_due" ∉ t.reminders_sent then
    addToSet "rem_due" (thresholdLabels env now t)
  else thresholdLabels env now t

/-- The auto-expiry block of `check_reminders`: `if seconds_left < -86400`,
the task document is deleted. -/
def deleteEvents (now : Int) (t : Task) : List SweepEvent :=
  if t.deadline - now < -86400 then [SweepEvent.deleteTask t.id] else []

/-- Events of the custom-reminder block for one task. -/
def customEvents (env : DeliveryEnv) (now : Int) (t : Task) : List SweepEvent :=
  (runCustoms env now t.id t.custom_reminders 0).1

/-- Custom-reminder entries after one tick. -/
def customAfter (env : DeliveryEnv) (now : Int) (t : Task) : List CustomReminder :=
  (runCustoms env now t.id t.custom_reminders 0).2

/-- All observable actions of one sweep tick on one open task, concatenated in
the execution order of the `check_reminders` loop body: thresholds, then due,
then expiry deletion, then custom reminders. -/
def sweepEvents (env : DeliveryEnv) (now : Int) (t : Task) : List SweepEvent :=
  thresholdEvents env now t ++ dueEvents env now t ++ deleteEvents now t ++
    customEvents env now t

/-- The task document after one sweep tick evaluated it: `none` when the
expiry deletion removed it, otherwise the document with the persisted labels
and updated custom-reminder flags.  (A flag update after the delete matches no
document, so the deleted case discards it.) -/
def sweepAfter (env : DeliveryEnv) (now : Int) (t : Task) : Option Task :=
  if t.deadline - now < -86400 then none
  else some { t with reminders_sent := sweepLabels env now t
                     custom_reminders := customAfter env now t }

/-- Operations that touch a task's `reminders_sent` over its lifetime:
a sweep-tick evaluation (which skips completed tasks, since the tick fetches
`find({'status': False})`), or a direct `mark_reminder_sent_async` call. -/
inductive ItemOp where
  | sweep (env : DeliveryEnv) (now : Int)
  | mark (label : String)

/-- Apply one operation to a live task document. -/
def applyOp (op : ItemOp) (t : Task) : Option Task :=
  match op with
  | .sweep env now => if t.status then some t else sweepAfter env now t
  | .mark l => some { t with reminders_sent := addToSet l t.reminders_sent }

/-- Apply a sequence of operations; a deleted document stays deleted. -/
def applyOps : List ItemOp → Option Task → Option Task
  | [], s => s
  | op :: rest, some t =>
    match applyOp op t with
    | some t' => applyOps rest (some t')
    | none => none
  | _ :: _, none => none

/-- A sequence of sweep ticks over one task document, each tick given its
delivery environment and instant.  Completed documents are skipped (the tick
only fetches `status: False`); a deleted document is gone for good. -/
def runTicks : List (DeliveryEnv × Int) → Option Task → List SweepEvent × Option Task
  | [], s => ([], s)
  | _ :: _, none => ([], none)
  | (env, now) :: rest, some t =>
    if t.status then runTicks rest (some t)
    else
      let r2 := runTicks rest (sweepAfter env now t)
      (sweepEvents env now t ++ r2.1, r2.2)

end VeroBot

namespace VeroBot

/-! ## Identifier resolution (`done`, `edit`, `assign`, `setreminder` in `src/bot.py`)
All four commands contain the same resolution block verbatim; it is embedded
once here. -/

/-- Python `str.isdigit` on the identifier token: nonempty and all digits. -/
def isDigitToken (s : String) : Bool := !s.isEmpty && s.toList.all Char.isDigit

/-- Whether `bson.ObjectId(identifier)` succeeds: a 24-character hex string.
Modelled from the bson library's ObjectId validation (an 8-character short id
raises, routing the code into the startsWith branch). -/
def isValidObjectId (s : String) : Bool :=
  s.length == 24 && s.toList.all (fun c => c.isDigit || ('a' ≤ c && c ≤ 'f'))

/-- The Mongo filter `{'user_id': user_id, 'guild_id': guild_id, 'status': False}`
shared by the numeric and startsWith branches. -/
def viewFilter (uid : Nat) (gid : Option Nat) (t : Task) : Bool :=
  t.user_id == uid && t.guild_id == gid && t.status == false

/-- Insert a task into a deadline-ascending list (model of Mongo
`sort('deadline', 1)`). -/
def insertByDeadline (t : Task) : List Task → List Task
  | [] => [t]
  | u :: us => if t.deadline ≤ u.deadline then t :: u :: us else u :: insertByDeadline t us

/-- Sort tasks by deadline ascending. -/
def sortByDeadline : List Task → List Task
  | [] => []
  | t :: ts => insertByDeadline t (sortByDeadline ts)

/-- The `active_rows` list built by the numeric branch: the owner/scope/open
filter, sorted by deadline ascending, keeping only future deadlines
(`deadline_utc > now_utc`). -/
def activeRows (db : List Task) (uid : Nat) (gid : Option Nat) (now : Int) : List Task :=
  (sortByDeadline (db.filter (viewFilter uid gid))).filter (fun t => now < t.deadline)

/-- The shared identifier-resolution block of `done`/`edit`/`assign`/`setreminder`:
* all-digit token: 1-based index into `activeRows`;
* token accepted by `ObjectId(...)`: `find_one({'_id': ...})` over the whole
  collection, kept only when `user_id` and `guild_id` match (no `status` or
  future-deadline check);
* otherwise (`ObjectId` raised): first document of the owner/scope/open filter
  whose id starts with the token (no future-deadline check). -/
def resolveToken (db : List Task) (uid : Nat) (gid : Option Nat) (now : Int)
    (tok : String) : Option Task :=
  if isDigitToken tok then
    match tok.toNat? with
    | some n => if 1 ≤ n then (activeRows db uid gid now).get? (n - 1) else none
    | none => none
  else if isValidObjectId tok then
    match db.find? (fun c => c.id == tok) with
    | some c => if c.user_id == uid && c.guild_id == gid then some c else none
    | none => none
  else
    (db.filter (viewFilter uid gid)).find? (fun r => r.id.startsWith tok)

/-! ## The `edit` command (`src/bot.py`) -/

/-- The optional arguments of `/edit`.  `newDeadline` is the UTC instant
`parse_deadline(tanggal_deadline, tz)` produced for a provided (truthy)
`tanggal_deadline` string; an unparseable string aborts the command before any
mutation, so it is out of scope here. -/
structure EditRequest where
  judul : Option String
  newDeadline : Option Int
  deskripsi : Option String
  tag : Option String

/-- Python truthiness of an optional string argument (`if judul:`):
present and nonempty. -/
def truthy : Option String → Bool
  | none => false
  | some s => !s.isEmpty

/-- The `edit` command after identifier resolution (`src/bot.py`): rejected
with no mutation when no field is truthy, or when the new deadline is not in
the future (`new_deadline_utc <= now_utc`); otherwise `$set` of exactly the
provided fields, with a provided deadline also resetting `reminders_sent` to
`[]`.  `custom_reminders` is never touched. -/
def applyEdit (now : Int) (t : Task) (r : EditRequest) : Option Task :=
  if !truthy r.judul && r.newDeadline.isNone && !truthy r.deskripsi && !truthy r.tag then
    none
  else
    match r.newDeadline with
    | some d =>
      if d ≤ now then none
      else some { t with
        judul := if truthy r.judul then r.judul.getD t.judul else t.judul
        deadline := d
        reminders_sent := []
        deskripsi := if truthy r.deskripsi then r.deskripsi else t.deskripsi
        tag := if truthy r.tag then r.tag.getD t.tag else t.tag }
    | none =>
      some { t with
        judul := if truthy r.judul then r.judul.getD t.judul else t.judul
        deskripsi := if truthy r.deskripsi then r.deskripsi else t.deskripsi
        tag := if truthy r.tag then r.tag.getD t.tag else t.tag }

/-! ## The weekly summary window (`send_weekly_summary` in `src/bot.py`)
Local instants are seconds since a local epoch falling on a Monday 00:00
(e.g. 1970-01-05 local), so that `day.emod 7` is exactly Python's
`datetime.weekday()` (Monday = 0).  `Asia/Jakarta` (the configured default)
has a fixed offset, so `astimezone(UTC)` is a constant subtraction. -/

/-- `days_since_monday = (now_local.weekday() - 0) % 7`, bumped to 7 when
today is Monday (`if days_since_monday == 0: days_since_monday = 7`). -/
def daysSinceMonday (nowLocal : Int) : Int :=
  if (nowLocal.ediv 86400).emod 7 = 0 then 7 else (nowLocal.ediv 86400).emod 7

/-- The window computation of `send_weekly_summary`: window start is the
Monday `days_since_monday` days back at 00:00:00 (`replace(hour=0, minute=0,
second=0, microsecond=0)`), window end is start + 5 days at 23:59:59. -/
def computeWeekWindow (nowLocal : Int) : Int × Int :=
  ((nowLocal.ediv 86400 - daysSinceMonday nowLocal) * 86400,
   (nowLocal.ediv 86400 - daysSinceMonday nowLocal) * 86400 + 5 * 86400 + 86399)

/-- `astimezone(ZoneInfo('UTC'))` for the fixed-offset default timezone:
subtract the offset (in seconds). -/
def localToUtc (off : Int) (x : Int) : Int := x - off

/-- The query of `send_weekly_summary`:
`find({'deadline': {'$gte': start_utc, '$lte': end_utc}})` — with no
condition on `status`. -/
def weeklySummaryTasks (db : List Task) (nowLocal off : Int) : List Task :=
  db.filter (fun t =>
    decide (localToUtc off (computeWeekWindow nowLocal).1 ≤ t.deadline ∧
      t.deadline ≤ localToUtc off (computeWeekWindow nowLocal).2))

/-! ## Wall-clock parsing and display (`src/utils.py`)
Instants and naive wall clocks are minute counts (the formats carry minute
precision).  A timezone is modelled by its two offset functions, in minutes:
the offset in effect at a UTC instant (used by `astimezone`), and the offset
`zoneinfo` assigns to a naive wall clock via `dt.replace(tzinfo=tz)` — Python
datetimes default to `fold=0`, which at an ambiguous wall clock picks the
offset of the *first* (pre-transition) occurrence. -/

structure TzModel where
  utcOffset : Int → Int
  localOffset : Int → Int

/-- Displaying a UTC instant in a zone at minute precision
(`astimezone(ZoneInfo(tz))` then the `YYYY-MM-DD HH:MM` fields): the local
wall-clock minute count. -/
def format_for_display (tz : TzModel) (x : Int) : Int := x + tz.utcOffset x

/-- `parse_deadline` (`src/utils.py`): `strptime` the wall clock, attach the
zone with `dt.replace(tzinfo=tz)` (fold=0), convert to UTC. -/
def parse_deadline (tz : TzModel) (wall : Int) : Int := wall - tz.localOffset wall

/-- IANA `America/New_York` around the 2025 DST end, in minutes since the Unix
epoch: EDT (UTC-240min) before 2025-11-02 06:00 UTC (epoch minute 29367720),
EST (UTC-300min) after.  For naive wall clocks, fold=0 resolves every wall
clock before 02:00 standard local time on 2025-11-02 (epoch-style minute
29367480) to the pre-transition offset. -/
def newYork2025 : TzModel :=
  { utcOffset := fun m => if m < 29367720 then -240 else -300
    localOffset := fun w => if w < 29367480 then -240 else -300 }

/-- A fixed-offset zone such as the default `Asia/Jakarta` (UTC+420 minutes,
no DST at any instant). -/
def asiaJakarta : TzModel :=
  { utcOffset := fun _ => 420, localOffset := fun _ => 420 }

/-- 2025-11-02 06:30 UTC in epoch minutes: inside the repeated (ambiguous)
local hour of the fall-back transition. -/
def ambiguousInstant : Int := 29367750

/-! ## `human_delta` (`src/utils.py`) -/

/-- Lines 57–68 of `human_delta`: the rendering from the already computed
`total_seconds` integer.  Negative renders the fixed token, otherwise
`days, rem = divmod(ts, 86400); hours, rem = divmod(rem, 3600);
minutes, _ = divmod(rem, 60)`, with falsy (zero) `days`/`hours` parts dropped
and the minutes part always appended, joined by spaces. -/
def human_delta_of_seconds (totalSeconds : Int) : String :=
  if totalSeconds < 0 then "sudah lewat"
  else
    String.intercalate " "
      ((if totalSeconds.toNat / 86400 ≠ 0 then
          [toString (totalSeconds.toNat / 86400) ++ "d"] else []) ++
       (if totalSeconds.toNat % 86400 / 3600 ≠ 0 then
          [toString (totalSeconds.toNat % 86400 / 3600) ++ "h"] else []) ++
       [toString (totalSeconds.toNat % 86400 % 3600 / 60) ++ "m"])

/-- `human_delta` from `src/utils.py`, on a `timedelta` measured in
microseconds (the resolution of Python's `timedelta`).  Its first line,
`total_seconds = int(delta.total_seconds())`, truncates toward zero — `int()`
of a float drops the fractional part — which `Int.div` (T-division) models
exactly (`Int.tdiv` truncates toward zero; float rounding only matters at
magnitudes far beyond any real deadline arithmetic).  In particular every `delta` in (−1s, 0) truncates to
`0` and is rendered by the non-negative branch. -/
def human_delta (deltaMicros : Int) : String :=
  human_delta_of_seconds (Int.tdiv deltaMicros 1000000)

/-- The rendering described by the claim's words: the duration's whole number
of days, of hours (mod 24) and of minutes (mod 60), the zero leading units
(days, hours) omitted, the minutes unit always shown, and negative durations
rendered as the fixed already-past token. -/
def humanDurationSpec (totalSeconds : Int) : String :=
  if totalSeconds < 0 then "sudah lewat"
  else
    String.intercalate " "
      ((if totalSeconds.toNat / 86400 ≠ 0 then
          [toString (totalSeconds.toNat / 86400) ++ "d"] else []) ++
       (if totalSeconds.toNat / 3600 % 24 ≠ 0 then
          [toString (totalSeconds.toNat / 3600 % 24) ++ "h"] else []) ++
       [toString (totalSeconds.toNat / 60 % 60) ++ "m"])

/-! ## Concrete instances used by witnesses and counterexamples -/

/-- A delivery environment where the channel is resolved and `send` succeeds. -/
def env0 : DeliveryEnv := { channelFound := true, sendOk := true }

/-- A delivery environment where the channel is resolved but `channel.send`
raises: the delivery fails. -/
def envFail : DeliveryEnv := { channelFound := true, sendOk := false }

/-- An open task exactly 72h 30s before its deadline at instant 0. -/
def task1 : Task :=
  { id := "aaaaaaaaaaaaaaaaaaaaaaaa", user_id := 1, guild_id := some 10
    judul := "tugas", deskripsi := none, deadline := 259230, status := false
    created_at := 0, reminders_sent := [], tag := "individu"
    assigned_users := [], custom_reminders := [] }

/-- An open task overdue by 25 hours at instant 0, due notice not yet sent. -/
def task2 : Task :=
  { id := "cccccccccccccccccccccccc", user_id := 1, guild_id := some 10
    judul := "telat", deskripsi := none, deadline := -90000, status := false
    created_at := -200000, reminders_sent := ["rem_72h", "rem_24h", "rem_5h"]
    tag := "individu", assigned_users := [], custom_reminders := [] }

/-- An open task exactly at the 72h threshold at instant 0, no label sent. -/
def task4 : Task :=
  { id := "dddddddddddddddddddddddd", user_id := 2, guild_id := some 10
    judul := "gagal kirim", deskripsi := none, deadline := 259200, status := false
    created_at := 0, reminders_sent := [], tag := "individu"
    assigned_users := [], custom_reminders := [] }

/-- A *completed* task owned by user 7 in guild 3 whose full ObjectId is a
valid 24-hex token. -/
def task5 : Task :=
  { id := "abcdef0123456789abcdef01", user_id := 7, guild_id := some 3
    judul := "selesai", deskripsi := none, deadline := 50, status := true
    created_at := 0, reminders_sent := [], tag := "individu"
    assigned_users := [], custom_reminders := [] }

/-- An open future task owned by user 7 in guild 3, resolvable by the 8-char
short id `"abc01234"`. -/
def task5w : Task :=
  { id := "abc0123456789abcdef01234", user_id := 7, guild_id := some 3
    judul := "aktif", deskripsi := none, deadline := 1000, status := false
    created_at := 0, reminders_sent := [], tag := "individu"
    assigned_users := [], custom_reminders := [] }

/-- A task with one sent label and one custom reminder, to be edited. -/
def task6 : Task :=
  { id := "eeeeeeeeeeeeeeeeeeeeeeee", user_id := 4, guild_id := some 10
    judul := "lama", deskripsi := some "d", deadline := 500, status := false
    created_at := 0, reminders_sent := ["rem_72h"], tag := "individu"
    assigned_users := [5], custom_reminders := [{ time := 400, sent := true, created_by := 4 }] }

/-- An edit request supplying only a new deadline. -/
def req6 : EditRequest :=
  { judul := none, newDeadline := some 900, deskripsi := none, tag := none }

/-- An open task with one unsent custom reminder at instant 5000. -/
def task10 : Task :=
  { id := "ffffffffffffffffffffffff", user_id := 1, guild_id := some 10
    judul := "pengingat", deskripsi := none, deadline := 1000000, status := false
    created_at := 0, reminders_sent := [], tag := "individu"
    assigned_users := [], custom_reminders := [{ time := 5000, sent := false, created_by := 1 }] }

/-- A task with a deadline inside the weekly window used by the C7 witness. -/
def task7 : Task :=
  { id := "0123456789abcdef01234567", user_id := 9, guild_id := some 12
    judul := "minggu", deskripsi := none, deadline := 200000 - 25200, status := false
    created_at := 0, reminders_sent := [], tag := "kelompok"
    assigned_users := [], custom_reminders := [] }

end VeroBot

namespace VeroBot

/-- The rendering stage of `human_delta` coincides with the claim's rendering
on every truncated second count. -/
theorem human_delta_of_seconds_eq_spec (s : Int) :
    human_delta_of_seconds s = humanDurationSpec s := by
  unfold human_delta_of_seconds humanDurationSpec
  split
  · rfl
  · have h1 : s.toNat % 86400 / 3600 = s.toNat / 3600 % 24 := by omega
    have h2 : s.toNat % 86400 % 3600 / 60 = s.toNat / 60 % 60 := by omega
    rw [h1, h2]

/-- C9 counterexample: the negative duration `timedelta(microseconds=-1)`.
`int(delta.total_seconds())` truncates toward zero, so `total_seconds = 0` and
`human_delta` renders `'0m'`, not the fixed already-past token — the claim
that every negative duration renders that token is false at this input. -/
theorem C9_counterexample :
    (-1 : Int) < 0 ∧ human_delta (-1) = "0m" ∧ human_delta (-1) ≠ "sudah lewat" := by
  refine ⟨by norm_num, ?_, ?_⟩ <;> decide

/-- C9 (amended): `human_delta` renders the fixed already-past token exactly
for durations of a full second or more below zero; negative durations
strictly between −1s and 0 truncate toward zero and render `'0m'`; and every
non-negative duration renders as the whole days/hours/minutes of its truncated
second count, zero leading units omitted, minutes always shown — the rendering
spelled out by the claim. -/
theorem C9_human_delta_rendering (m : Int) :
    (m ≤ -1000000 → human_delta m = "sudah lewat") ∧
    (-1000000 < m → m < 0 → human_delta m = "0m") ∧
    (0 ≤ m → human_delta m = humanDurationSpec (Int.tdiv m 1000000)) := by
  refine ⟨?_, ?_, ?_⟩
  · intro hm
    cases m with
    | ofNat n =>
      rw [Int.ofNat_eq_natCast] at hm
      exact absurd hm (by omega)
    | negSucc k =>
      rw [Int.negSucc_eq] at hm
      have hk : 1000000 ≤ k + 1 := by omega
      have hneg : Int.tdiv (Int.negSucc k) 1000000 < 0 := by
        show -(Int.ofNat ((k + 1) / 1000000)) < 0
        rw [Int.ofNat_eq_natCast]
        have h1 : 1 ≤ (k + 1) / 1000000 := by omega
        omega
      unfold human_delta human_delta_of_seconds
      rw [if_pos hneg]
  · intro hlo hhi
    cases m with
    | ofNat n =>
      rw [Int.ofNat_eq_natCast] at hhi
      exact absurd hhi (by omega)
    | negSucc k =>
      rw [Int.negSucc_eq] at hlo
      have hk : k + 1 < 1000000 := by omega
      have hdiv : Int.tdiv (Int.negSucc k) 1000000 = 0 := by
        show -(Int.ofNat ((k + 1) / 1000000)) = 0
        rw [Nat.div_eq_of_lt hk]
        rfl
      unfold human_delta
      rw [hdiv]
      rfl
  · intro hm
    unfold human_delta
    exact human_delta_of_seconds_eq_spec _

/-- C9 witness: a half-second-early duration renders `'0m'` and a one-second
overdue duration renders the already-past token. -/
theorem C9_human_delta_rendering_witness :
    human_delta (-500000) = "0m" ∧ human_delta (-1000000) = "sudah lewat" :=
  ⟨(C9_human_delta_rendering (-500000)).2.1 (by norm_num) (by norm_num),
   (C9_human_delta_rendering (-1000000)).1 (by norm_num)⟩

/-- C8 counterexample: for the real IANA zone `America/New_York` and the UTC
instant 2025-11-02 06:30 (zero seconds), displaying and re-parsing the wall
clock with the same zone yields an instant 60 minutes earlier than `x` — the
formatted wall clock 01:30 falls in the repeated hour of the DST fall-back and
fold=0 parsing picks the pre-transition offset.  The claim's universally
quantified round-trip equality is therefore false. -/
theorem C8_counterexample :
    parse_deadline newYork2025 (format_for_display newYork2025 ambiguousInstant) =
      ambiguousInstant - 60 ∧
    parse_deadline newYork2025 (format_for_display newYork2025 ambiguousInstant) ≠
      ambiguousInstant := by
  constructor
  · rfl
  · decide

/-- C8 (amended): the display/re-parse round trip is exact whenever the zone
assigns the displayed wall clock the same offset that was in effect at `x`
(fold-0 resolution agrees with the actual offset) — in particular at every
instant of a fixed-offset zone such as the default `Asia/Jakarta`, and at
every DST-unambiguous instant of any zone. -/
theorem C8_roundtrip_unambiguous (tz : TzModel) (x : Int)
    (h : tz.localOffset (x + tz.utcOffset x) = tz.utcOffset x) :
    parse_deadline tz (format_for_display tz x) = x := by
  unfold parse_deadline format_for_display
  omega

/-- C8 witness: the round trip at a concrete instant of the fixed-offset
default zone. -/
theorem C8_roundtrip_unambiguous_witness :
    parse_deadline asiaJakarta (format_for_display asiaJakarta 29367750) = 29367750 :=
  C8_roundtrip_unambiguous asiaJakarta 29367750 rfl

/-! ## Lemmas about `$addToSet` -/

theorem addToSet_mem (l l' : String) (s : List String) :
    l ∈ addToSet l' s ↔ l = l' ∨ l ∈ s := by
  unfold addToSet
  split
  · constructor
    · exact Or.inr
    · rintro (rfl | h)
      · assumption
      · assumption
  · simp [List.mem_append, or_comm]

theorem addToSet_count_le (l l' : String) (s : List String) (h : s.count l ≤ 1) :
    (addToSet l' s).count l ≤ 1 := by
  unfold addToSet
  split
  · exact h
  · rename_i hnot
    rw [List.count_append]
    by_cases he : l = l'
    · subst he
      have : s.count l = 0 := by
        rw [List.count_eq_zero]
        exact hnot
      simp [this, List.count_singleton]
    · have : List.count l [l'] = 0 := by
        rw [List.count_eq_zero]
        simp [he]
      omega

/-! ## Lemmas about the threshold loop -/

theorem runThresholds_mem_events (env : DeliveryEnv) (now : Int) (t : Task)
    (ths : List Nat) (labels : List String) (e : SweepEvent) :
    e ∈ (runThresholds env now t ths labels).1 ↔
      ∃ th, th ∈ ths ∧ e = SweepEvent.emitThreshold t.id th (delivered env) ∧
        threshLabel th ∉ t.reminders_sent ∧
        ((th : Int) * 3600 - 90 ≤ t.deadline - now ∧ t.deadline - now ≤ (th : Int) * 3600 + 90) := by
  induction ths generalizing labels with
  | nil => simp [runThresholds]
  | cons th rest ih =>
    by_cases h1 : threshLabel th ∈ t.reminders_sent
    · rw [runThresholds, if_pos h1, ih]
      constructor
      · rintro ⟨th', hm, hrest⟩
        exact ⟨th', List.mem_cons_of_mem _ hm, hrest⟩
      · rintro ⟨th', hm, he, hns, hw⟩
        rcases List.mem_cons.mp hm with rfl | hm'
        · exact absurd h1 hns
        · exact ⟨th', hm', he, hns, hw⟩
    · by_cases h2 : (th : Int) * 3600 - 90 ≤ t.deadline - now ∧ t.deadline - now ≤ (th : Int) * 3600 + 90
      · rw [runThresholds, if_neg h1, if_pos h2]
        simp only [List.mem_cons, ih]
        constructor
        · rintro (rfl | ⟨th', hm, he, hns, hw⟩)
          · exact ⟨th, Or.inl rfl, rfl, h1, h2⟩
          · exact ⟨th', Or.inr hm, he, hns, hw⟩
        · rintro ⟨th', rfl | hm', he, hns, hw⟩
          · exact Or.inl he
          · exact Or.inr ⟨th', hm', he, hns, hw⟩
      · rw [runThresholds, if_neg h1, if_neg h2, ih]
        constructor
        · rintro ⟨th', hm, hrest⟩
          exact ⟨th', List.mem_cons_of_mem _ hm, hrest⟩
        · rintro ⟨th', hm, he, hns, hw⟩
          rcases List.mem_cons.mp hm with rfl | hm'
          · exact absurd hw h2
          · exact ⟨th', hm', he, hns, hw⟩

theorem runThresholds_mem_labels (env : DeliveryEnv) (now : Int) (t : Task)
    (ths : List Nat) (labels : List String) (l : String) :
    l ∈ (runThresholds env now t ths labels).2 ↔
      l ∈ labels ∨ ∃ th, th ∈ ths ∧ l = threshLabel th ∧
        threshLabel th ∉ t.reminders_sent ∧
        ((th : Int) * 3600 - 90 ≤ t.deadline - now ∧ t.deadline - now ≤ (th : Int) * 3600 + 90) := by
  induction ths generalizing labels with
  | nil => simp [runThresholds]
  | cons th rest ih =>
    by_cases h1 : threshLabel th ∈ t.reminders_sent
    · rw [runThresholds, if_pos h1, ih]
      constructor
      · rintro (h | ⟨th', hm, hrest⟩)
        · exact Or.inl h
        · exact Or.inr ⟨th', List.mem_cons_of_mem _ hm, hrest⟩
      · rintro (h | ⟨th', hm, he, hns, hw⟩)
        · exact Or.inl h
        · rcases List.mem_cons.mp hm with rfl | hm'
          · exact absurd h1 hns
          · exact Or.inr ⟨th', hm', he, hns, hw⟩
    · by_cases h2 : (th : Int) * 3600 - 90 ≤ t.deadline - now ∧ t.deadline - now ≤ (th : Int) * 3600 + 90
      · rw [runThresholds, if_neg h1, if_pos h2]
        show l ∈ (runThresholds env now t rest (addToSet (threshLabel th) labels)).2 ↔ _
        rw [ih]
        constructor
        · rintro (h | ⟨th', hm, hrest⟩)
          · rcases (addToSet_mem l (threshLabel th) labels).mp h with rfl | h'
            · exact Or.inr ⟨th, List.mem_cons_self _ _, rfl, h1, h2⟩
            · exact Or.inl h'
          · exact Or.inr ⟨th', List.mem_cons_of_mem _ hm, hrest⟩
        · rintro (h | ⟨th', hm, he, hns, hw⟩)
          · exact Or.inl ((addToSet_mem l (threshLabel th) labels).mpr (Or.inr h))
          · rcases List.mem_cons.mp hm with rfl | hm'
            · exact Or.inl ((addToSet_mem l (threshLabel th') labels).mpr (Or.inl he))
            · exact Or.inr ⟨th', hm', he, hns, hw⟩
      · rw [runThresholds, if_neg h1, if_neg h2, ih]
        constructor
        · rintro (h | ⟨th', hm, hrest⟩)
          · exact Or.inl h
          · exact Or.inr ⟨th', List.mem_cons_of_mem _ hm, hrest⟩
        · rintro (h | ⟨th', hm, he, hns, hw⟩)
          · exact Or.inl h
          · rcases List.mem_cons.mp hm with rfl | hm'
            · exact absurd hw h2
            · exact Or.inr ⟨th', hm', he, hns, hw⟩

theorem runThresholds_count_le (env : DeliveryEnv) (now : Int) (t : Task)
    (ths : List Nat) (labels : List String) (l : String) (h : labels.count l ≤ 1) :
    ((runThresholds env now t ths labels).2).count l ≤ 1 := by
  induction ths generalizing labels with
  | nil => simpa [runThresholds] using h
  | cons th rest ih =>
    by_cases h1 : threshLabel th ∈ t.reminders_sent
    · rw [runThresholds, if_pos h1]
      exact ih labels h
    · by_cases h2 : (th : Int) * 3600 - 90 ≤ t.deadline - now ∧ t.deadline - now ≤ (th : Int) * 3600 + 90
      · rw [runThresholds, if_neg h1, if_pos h2]
        exact ih _ (addToSet_count_le l (threshLabel th) labels h)
      · rw [runThresholds, if_neg h1, if_neg h2]
        exact ih labels h

/-! ## Lemmas about the custom-reminder loop -/

theorem runCustoms_mem_events (env : DeliveryEnv) (now : Int) (tid : String)
    (rs : List CustomReminder) (i : Nat) (e : SweepEvent) :
    e ∈ (runCustoms env now tid rs i).1 ↔
      ∃ k r, rs.get? k = some r ∧ e = SweepEvent.emitCustom tid (i + k) (delivered env) ∧
        r.sent = false ∧ ((-90 : Int) ≤ now - r.time ∧ now - r.time ≤ 90) := by
  induction rs generalizing i with
  | nil => simp [runCustoms]
  | cons r rest ih =>
    have hshift : ∀ k, SweepEvent.emitCustom tid ((i + 1) + k) (delivered env) =
        SweepEvent.emitCustom tid (i + (k + 1)) (delivered env) := by
      intro k
      congr 1
      omega
    by_cases h1 : r.sent
    · rw [runCustoms, if_pos h1]
      show e ∈ (runCustoms env now tid rest (i + 1)).1 ↔ _
      rw [ih]
      constructor
      · rintro ⟨k, r', hget, he, hs, hw⟩
        exact ⟨k + 1, r', hget, by rw [he, hshift], hs, hw⟩
      · rintro ⟨k, r', hget, he, hs, hw⟩
        cases k with
        | zero =>
          rw [List.get?] at hget
          cases hget
          rw [hs] at h1
          exact absurd h1 (by simp)
        | succ k' =>
          rw [List.get?] at hget
          exact ⟨k', r', hget, by rw [he, hshift], hs, hw⟩
    · by_cases h2 : (-90 : Int) ≤ now - r.time ∧ now - r.time ≤ 90
      · rw [runCustoms, if_neg h1, if_pos h2]
        show e ∈ SweepEvent.emitCustom tid i (delivered env) ::
          (runCustoms env now tid rest (i + 1)).1 ↔ _
        rw [List.mem_cons, ih]
        constructor
        · rintro (rfl | ⟨k, r', hget, he, hs, hw⟩)
          · exact ⟨0, r, rfl, rfl, by simpa using h1, h2⟩
          · exact ⟨k + 1, r', hget, by rw [he, hshift], hs, hw⟩
        · rintro ⟨k, r', hget, he, hs, hw⟩
          cases k with
          | zero =>
            rw [List.get?] at hget
            cases hget
            exact Or.inl (by rw [he]; simp)
          | succ k' =>
            rw [List.get?] at hget
            exact Or.inr ⟨k', r', hget, by rw [he, hshift], hs, hw⟩
      · rw [runCustoms, if_neg h1, if_neg h2]
        show e ∈ (runCustoms env now tid rest (i + 1)).1 ↔ _
        rw [ih]
        constructor
        · rintro ⟨k, r', hget, he, hs, hw⟩
          exact ⟨k + 1, r', hget, by rw [he, hshift], hs, hw⟩
        · rintro ⟨k, r', hget, he, hs, hw⟩
          cases k with
          | zero =>
            rw [List.get?] at hget
            cases hget
            exact absurd hw h2
          | succ k' =>
            rw [List.get?] at hget
            exact ⟨k', r', hget, by rw [he, hshift], hs, hw⟩

theorem runCustoms_get_miss (env : DeliveryEnv) (now : Int) (tid : String)
    (rs : List CustomReminder) (i k : Nat) (r : CustomReminder)
    (hget : rs.get? k = some r)
    (hmiss : ¬((-90 : Int) ≤ now - r.time ∧ now - r.time ≤ 90)) :
    ((runCustoms env now tid rs i).2).get? k = some r := by
  induction rs generalizing i k with
  | nil => simp [List.get?] at hget
  | cons r0 rest ih =>
    cases k with
    | zero =>
      rw [List.get?] at hget
      cases hget
      by_cases h1 : r.sent
      · rw [runCustoms, if_pos h1]
        rfl
      · rw [runCustoms, if_neg h1, if_neg hmiss]
        rfl
    | succ k' =>
      rw [List.get?] at hget
      by_cases h1 : r0.sent
      · rw [runCustoms, if_pos h1]
        exact ih (i + 1) k' hget
      · by_cases h2 : (-90 : Int) ≤ now - r0.time ∧ now - r0.time ≤ 90
        · rw [runCustoms, if_neg h1, if_pos h2]
          show ((if env.channelFound && !env.sendOk then r0 else { r0 with sent := true }) ::
            (runCustoms env now tid rest (i + 1)).2).get? (k' + 1) = some r
          rw [List.get?]
          exact ih (i + 1) k' hget
        · rw [runCustoms, if_neg h1, if_neg h2]
          exact ih (i + 1) k' hget

/-! ## Lemmas about one tick over one task -/

theorem mem_sweepEvents (env : DeliveryEnv) (now : Int) (t : Task) (e : SweepEvent) :
    e ∈ sweepEvents env now t ↔
      e ∈ thresholdEvents env now t ∨ e ∈ dueEvents env now t ∨
        e ∈ deleteEvents now t ∨ e ∈ customEvents env now t := by
  simp [sweepEvents, List.mem_append, or_assoc]

theorem mem_dueEvents (env : DeliveryEnv) (now : Int) (t : Task) (e : SweepEvent)
    (h : e ∈ dueEvents env now t) :
    e = SweepEvent.emitDue t.id (delivered env) ∧ t.deadline - now ≤ 0 ∧
      "rem_due" ∉ t.reminders_sent := by
  unfold dueEvents at h
  split at h
  · rename_i hc
    simp at h
    exact ⟨h, hc⟩
  · simp at h

theorem mem_deleteEvents (now : Int) (t : Task) (e : SweepEvent)
    (h : e ∈ deleteEvents now t) :
    e = SweepEvent.deleteTask t.id ∧ t.deadline - now < -86400 := by
  unfold deleteEvents at h
  split at h
  · rename_i hc
    simp at h
    exact ⟨h, hc⟩
  · simp at h

theorem sweepLabels_of_thresholdLabels (env : DeliveryEnv) (now : Int) (t : Task)
    (l : String) (h : l ∈ thresholdLabels env now t) : l ∈ sweepLabels env now t := by
  unfold sweepLabels
  split
  · exact (addToSet_mem _ _ _).mpr (Or.inr h)
  · exact h

theorem sweepLabels_count_le (env : DeliveryEnv) (now : Int) (t : Task) (l : String)
    (h : t.reminders_sent.count l ≤ 1) : (sweepLabels env now t).count l ≤ 1 := by
  unfold sweepLabels thresholdLabels
  split
  · exact addToSet_count_le _ _ _ (runThresholds_count_le env now t _ _ _ h)
  · exact runThresholds_count_le env now t _ _ _ h

theorem threshold_no_reemit (env : DeliveryEnv) (now : Int) (t : Task) (th : Nat) (d : Bool)
    (h : threshLabel th ∈ t.reminders_sent) :
    SweepEvent.emitThreshold t.id th d ∉ sweepEvents env now t := by
  intro hmem
  rcases (mem_sweepEvents env now t _).mp hmem with h1 | h2 | h3 | h4
  · rcases (runThresholds_mem_events env now t _ _ _).mp h1 with ⟨th', _, he, hns, _⟩
    injection he with _ hth' _
    subst hth'
    exact hns h
  · exact absurd (mem_dueEvents env now t _ h2).1 (by simp)
  · exact absurd (mem_deleteEvents now t _ h3).1 (by simp)
  · rcases (runCustoms_mem_events env now t.id t.custom_reminders 0 _).mp h4 with ⟨_, _, _, he, _⟩
    exact absurd he (by simp)

theorem due_no_reemit (env : DeliveryEnv) (now : Int) (t : Task) (d : Bool)
    (h : "rem_due" ∈ t.reminders_sent) :
    SweepEvent.emitDue t.id d ∉ sweepEvents env now t := by
  intro hmem
  rcases (mem_sweepEvents env now t _).mp hmem with h1 | h2 | h3 | h4
  · rcases (runThresholds_mem_events env now t _ _ _).mp h1 with ⟨_, _, he, _⟩
    exact absurd he (by simp)
  · exact absurd h ((mem_dueEvents env now t _ h2).2).2
  · exact absurd (mem_deleteEvents now t _ h3).1 (by simp)
  · rcases (runCustoms_mem_events env now t.id t.custom_reminders 0 _).mp h4 with ⟨_, _, _, he, _⟩
    exact absurd he (by simp)

theorem sweep_custom_miss (env : DeliveryEnv) (now : Int) (t : Task) (idx : Nat)
    (r : CustomReminder) (hr : t.custom_reminders.get? idx = some r)
    (hmiss : ¬((-90 : Int) ≤ now - r.time ∧ now - r.time ≤ 90)) :
    (∀ d, SweepEvent.emitCustom t.id idx d ∉ sweepEvents env now t) ∧
    (∀ t', sweepAfter env now t = some t' →
      t'.id = t.id ∧ t'.status = t.status ∧ t'.custom_reminders.get? idx = some r) := by
  constructor
  · intro d hmem
    rcases (mem_sweepEvents env now t _).mp hmem with h1 | h2 | h3 | h4
    · rcases (runThresholds_mem_events env now t _ _ _).mp h1 with ⟨_, _, he, _⟩
      exact absurd he (by simp)
    · exact absurd (mem_dueEvents env now t _ h2).1 (by simp)
    · exact absurd (mem_deleteEvents now t _ h3).1 (by simp)
    · rcases (runCustoms_mem_events env now t.id t.custom_reminders 0 _).mp h4 with
        ⟨k, r', hget, he, hs, hw⟩
      injection he with _ hk _
      have hki : k = idx := by omega
      subst hki
      rw [hr] at hget
      injection hget with hr'
      subst hr'
      exact hmiss hw
  · intro t' ht'
    unfold sweepAfter at ht'
    split at ht'
    · cases ht'
    · cases ht'
      exact ⟨rfl, rfl, runCustoms_get_miss env now t.id t.custom_reminders 0 idx r hr hmiss⟩

theorem runTicks_none (ticks : List (DeliveryEnv × Int)) : runTicks ticks none = ([], none) := by
  cases ticks with
  | nil => rfl
  | cons p rest => rw [runTicks]

/-! ## Claim theorems about the sweep -/

/-- C1: for every open task, every configured threshold `t ∈ [72h, 24h, 5h]`
and every sweep tick at instant `N`, the tick emits the threshold notification
and persists its label if and only if the label is not already in the task's
sent labels and `|(D − N) − t| ≤ 90` seconds. -/
theorem C1_threshold_fire_iff (env : DeliveryEnv) (now : Int) (t : Task) (th : Nat)
    (_hopen : t.status = false) (hth : th ∈ REMINDER_THRESHOLDS) :
    (SweepEvent.emitThreshold t.id th (delivered env) ∈ sweepEvents env now t ∧
      threshLabel th ∈ sweepLabels env now t) ↔
    (threshLabel th ∉ t.reminders_sent ∧
      ((t.deadline - now) - (th : Int) * 3600).natAbs ≤ 90) := by
  constructor
  · rintro ⟨hev, -⟩
    rcases (mem_sweepEvents env now t _).mp hev with h1 | h2 | h3 | h4
    · rcases (runThresholds_mem_events env now t _ _ _).mp h1 with ⟨th', _, he, hns, hw⟩
      injection he with _ hth' _
      subst hth'
      exact ⟨hns, by omega⟩
    · exact absurd (mem_dueEvents env now t _ h2).1 (by simp)
    · exact absurd (mem_deleteEvents now t _ h3).1 (by simp)
    · rcases (runCustoms_mem_events env now t.id t.custom_reminders 0 _).mp h4 with
        ⟨_, _, _, he, _⟩
      exact absurd he (by simp)
  · rintro ⟨hns, hwin⟩
    have hw : (th : Int) * 3600 - 90 ≤ t.deadline - now ∧
        t.deadline - now ≤ (th : Int) * 3600 + 90 := by omega
    refine ⟨(mem_sweepEvents env now t _).mpr (Or.inl ?_),
      sweepLabels_of_thresholdLabels env now t _ ?_⟩
    · exact (runThresholds_mem_events env now t _ _ _).mpr ⟨th, hth, rfl, hns, hw⟩
    · exact (runThresholds_mem_labels env now t _ _ _).mpr (Or.inr ⟨th, hth, rfl, hns, hw⟩)

/-- C1 witness: a task exactly 72h 30s before its deadline fires the 72h
threshold and persists its label. -/
theorem C1_threshold_fire_iff_witness :
    SweepEvent.emitThreshold task1.id 72 (delivered env0) ∈ sweepEvents env0 0 task1 ∧
    threshLabel 72 ∈ sweepLabels env0 0 task1 :=
  (C1_threshold_fire_iff env0 0 task1 72 rfl (by decide)).mpr (by decide)

/-- C2: an open task overdue by more than 24 hours whose due label is absent
gets, on the same tick, the due notification at position 0 of the tick's event
list and the deletion at position 1 (due strictly before deletion), the due
label persisted, and the document removed. -/
theorem C2_due_before_delete (env : DeliveryEnv) (now : Int) (t : Task)
    (_hopen : t.status = false) (hover : 86400 < now - t.deadline)
    (hdue : "rem_due" ∉ t.reminders_sent) :
    (sweepEvents env now t).get? 0 = some (SweepEvent.emitDue t.id (delivered env)) ∧
    (sweepEvents env now t).get? 1 = some (SweepEvent.deleteTask t.id) ∧
    "rem_due" ∈ sweepLabels env now t ∧ sweepAfter env now t = none := by
  have hth : thresholdEvents env now t = [] := by
    rw [List.eq_nil_iff_forall_not_mem]
    intro e he
    rcases (runThresholds_mem_events env now t _ _ _).mp he with ⟨th', hm, _, _, hw⟩
    simp [REMINDER_THRESHOLDS] at hm
    rcases hm with rfl | rfl | rfl <;> omega
  have hdu : dueEvents env now t = [SweepEvent.emitDue t.id (delivered env)] := by
    unfold dueEvents
    rw [if_pos ⟨by omega, hdue⟩]
  have hde : deleteEvents now t = [SweepEvent.deleteTask t.id] := by
    unfold deleteEvents
    rw [if_pos (by omega)]
  refine ⟨?_, ?_, ?_, ?_⟩
  · unfold sweepEvents
    rw [hth, hdu, hde]
    rfl
  · unfold sweepEvents
    rw [hth, hdu, hde]
    rfl
  · unfold sweepLabels
    rw [if_pos ⟨by omega, hdue⟩]
    exact (addToSet_mem _ _ _).mpr (Or.inl rfl)
  · unfold sweepAfter
    rw [if_pos (by omega)]

/-- C2 witness: the task overdue by 25 hours. -/
theorem C2_due_before_delete_witness :
    (sweepEvents env0 0 task2).get? 0 = some (SweepEvent.emitDue task2.id (delivered env0)) ∧
    (sweepEvents env0 0 task2).get? 1 = some (SweepEvent.deleteTask task2.id) ∧
    "rem_due" ∈ sweepLabels env0 0 task2 ∧ sweepAfter env0 0 task2 = none :=
  C2_due_before_delete env0 0 task2 rfl (by decide) (by decide)

/-- C3: a standard label occurs at most once in a task's sent labels after any
sequence of sweep ticks and label-marking operations (starting from a state
where it occurs at most once), and a sweep tick never re-emits a threshold or
due notification whose label is already present. -/
theorem C3_label_idempotent (l : String) :
    (∀ ops t t', t.reminders_sent.count l ≤ 1 → applyOps ops (some t) = some t' →
      t'.reminders_sent.count l ≤ 1) ∧
    (∀ env now t th d, threshLabel th ∈ t.reminders_sent →
      SweepEvent.emitThreshold t.id th d ∉ sweepEvents env now t) ∧
    (∀ env now t d, "rem_due" ∈ t.reminders_sent →
      SweepEvent.emitDue t.id d ∉ sweepEvents env now t) := by
  refine ⟨?_, threshold_no_reemit, due_no_reemit⟩
  intro ops
  induction ops with
  | nil =>
    intro t t' h happ
    rw [applyOps] at happ
    cases happ
    exact h
  | cons op rest ih =>
    intro t t' h happ
    rw [applyOps] at happ
    cases op with
    | mark l' =>
      rw [applyOp] at happ
      exact ih _ t' (addToSet_count_le _ _ _ h) happ
    | sweep env now =>
      rw [applyOp] at happ
      by_cases hs : t.status
      · rw [if_pos hs] at happ
        exact ih t t' h happ
      · rw [if_neg hs] at happ
        by_cases hdel : t.deadline - now < -86400
        · unfold sweepAfter at happ
          rw [if_pos hdel] at happ
          exact Option.noConfusion happ
        · unfold sweepAfter at happ
          rw [if_neg hdel] at happ
          exact ih { t with reminders_sent := sweepLabels env now t
                            custom_reminders := customAfter env now t } t'
            (sweepLabels_count_le env now t l h) happ

/-- C3 witness: marking the same label twice leaves a single occurrence. -/
theorem C3_label_idempotent_witness :
    ({ task1 with reminders_sent := ["rem_72h"] } : Task).reminders_sent.count "rem_72h" ≤ 1 :=
  (C3_label_idempotent "rem_72h").1 [ItemOp.mark "rem_72h", ItemOp.mark "rem_72h"]
    task1 { task1 with reminders_sent := ["rem_72h"] } (by decide) (by decide)

/-- C4 counterexample: a task at its 72h threshold whose delivery fails (the
channel is resolved but `channel.send` raises).  `send_reminder_for_task`
catches the exception internally and returns normally, so the tick still
persists the label: the claim that a failed delivery leaves the label unmarked
(and the notification to be retried next tick) is false at this input. -/
theorem C4_counterexample :
    delivered envFail = false ∧
    SweepEvent.emitThreshold task4.id 72 false ∈ sweepEvents envFail 0 task4 ∧
    threshLabel 72 ∈ sweepLabels envFail 0 task4 ∧
    sweepAfter envFail 0 task4 =
      some { task4 with reminders_sent := ["rem_72h"] } := by
  refine ⟨rfl, ?_, ?_, ?_⟩ <;> decide

/-- C4 (amended): when a threshold fires, the label is persisted regardless of
the delivery outcome (in particular when the send raises or no channel could
be resolved), and consequently no later tick re-emits that threshold
notification for the task. -/
theorem C4_failed_delivery_still_marked (env env' : DeliveryEnv) (now now' : Int)
    (t : Task) (th : Nat) (hth : th ∈ REMINDER_THRESHOLDS)
    (hns : threshLabel th ∉ t.reminders_sent)
    (hwin : ((t.deadline - now) - (th : Int) * 3600).natAbs ≤ 90) :
    threshLabel th ∈ sweepLabels env now t ∧
    ∃ t', sweepAfter env now t = some t' ∧ threshLabel th ∈ t'.reminders_sent ∧
      ∀ d, SweepEvent.emitThreshold t'.id th d ∉ sweepEvents env' now' t' := by
  have hw : (th : Int) * 3600 - 90 ≤ t.deadline - now ∧
      t.deadline - now ≤ (th : Int) * 3600 + 90 := by omega
  have hlab : threshLabel th ∈ sweepLabels env now t :=
    sweepLabels_of_thresholdLabels env now t _
      ((runThresholds_mem_labels env now t _ _ _).mpr (Or.inr ⟨th, hth, rfl, hns, hw⟩))
  have hge : (5 : Int) ≤ (th : Int) := by
    have hcopy := hth
    simp [REMINDER_THRESHOLDS] at hcopy
    rcases hcopy with rfl | rfl | rfl <;> norm_num
  have hnotdel : ¬(t.deadline - now < -86400) := by omega
  refine ⟨hlab, { t with reminders_sent := sweepLabels env now t
                         custom_reminders := customAfter env now t }, ?_, hlab, ?_⟩
  · unfold sweepAfter
    rw [if_neg hnotdel]
  · intro d
    exact threshold_no_reemit env' now' _ th d hlab

/-- C4 witness: the label is persisted although the send raised. -/
theorem C4_failed_delivery_still_marked_witness :
    threshLabel 72 ∈ sweepLabels envFail 0 task4 :=
  (C4_failed_delivery_still_marked envFail env0 0 1000 task4 72 (by decide)
    (by decide) (by decide)).1

/-- C10: a custom reminder is never delivered (no custom-notification event
for its index is ever emitted) and its sent flag is never set by any sequence
of sweep ticks in which every tick instant misses the ±90-second window around
its fire time; in particular the reminder entry survives unchanged with its
flag still false. -/
theorem C10_custom_window_only (ticks : List (DeliveryEnv × Int)) (t : Task)
    (idx : Nat) (r : CustomReminder)
    (hr : t.custom_reminders.get? idx = some r) (hsent : r.sent = false)
    (hmiss : ∀ p ∈ ticks, ¬((-90 : Int) ≤ p.2 - r.time ∧ p.2 - r.time ≤ 90)) :
    (∀ d, SweepEvent.emitCustom t.id idx d ∉ (runTicks ticks (some t)).1) ∧
    (∀ t', (runTicks ticks (some t)).2 = some t' →
      t'.custom_reminders.get? idx = some r ∧ r.sent = false) := by
  induction ticks generalizing t with
  | nil =>
    constructor
    · intro d h
      simp [runTicks] at h
    · intro t' h
      rw [runTicks] at h
      cases h
      exact ⟨hr, hsent⟩
  | cons p rest ih =>
    obtain ⟨env, now⟩ := p
    by_cases hs : t.status
    · have heq : runTicks ((env, now) :: rest) (some t) = runTicks rest (some t) := by
        rw [runTicks, if_pos hs]
      rw [heq]
      exact ih t hr (fun q hq => hmiss q (List.mem_cons_of_mem _ hq))
    · have heq : runTicks ((env, now) :: rest) (some t) =
          (sweepEvents env now t ++ (runTicks rest (sweepAfter env now t)).1,
            (runTicks rest (sweepAfter env now t)).2) := by
        rw [runTicks, if_neg hs]
      have hmiss0 := hmiss (env, now) (List.mem_cons_self _ _)
      have hstep := sweep_custom_miss env now t idx r hr hmiss0
      cases hafter : sweepAfter env now t with
      | none =>
        rw [heq, hafter, runTicks_none]
        constructor
        · intro d hmem
          rcases List.mem_append.mp hmem with h | h
          · exact hstep.1 d h
          · simp at h
        · intro t' h
          simp at h
      | some t2 =>
        obtain ⟨hid, hst, hr2⟩ := hstep.2 t2 hafter
        have ih2 := ih t2 hr2 (fun q hq => hmiss q (List.mem_cons_of_mem _ hq))
        rw [heq, hafter]
        constructor
        · intro d hmem
          rcases List.mem_append.mp hmem with h | h
          · exact hstep.1 d h
          · rw [← hid] at h
            exact ih2.1 d h
        · intro t' h
          exact ih2.2 t' h

/-- C10 witness: a tick 4000 seconds before the reminder's fire time emits
nothing for it. -/
theorem C10_custom_window_only_witness :
    SweepEvent.emitCustom task10.id 0 true ∉ (runTicks [(env0, 1000)] (some task10)).1 :=
  (C10_custom_window_only [(env0, 1000)] task10 0
    { time := 5000, sent := false, created_by := 1 } rfl rfl (by decide)).1 true

/-! ## Claim theorems about identifier resolution, edit and the weekly window -/

/-- C5 counterexample: a *completed* task owned by the requesting user in the
requested scope.  Its full-ObjectId token resolves to it although the task is
outside the filtered view used by numeric resolution (which is empty here), so
the claim that exact-ID resolution only returns items of that view — and that
tokens matching items outside it yield NotFound — is false at this input. -/
theorem C5_counterexample :
    task5.status = true ∧
    resolveToken [task5] 7 (some 3) 100 task5.id = some task5 ∧
    activeRows [task5] 7 (some 3) 100 = [] := by
  refine ⟨rfl, ?_, ?_⟩ <;> decide

/-- C5 (amended): each resolution route guarantees exactly the checks it
performs — a numeric token resolves only into the full filtered view
(owner, scope, open, future deadline); an exact-ObjectId token checks only
ownership and scope (completed or past-deadline items still resolve); a short
token checks ownership, scope and openness but not future deadline. -/
theorem C5_resolver_scope (db : List Task) (uid : Nat) (gid : Option Nat) (now : Int)
    (tok : String) (t : Task) (h : resolveToken db uid gid now tok = some t) :
    (isDigitToken tok = true → t ∈ activeRows db uid gid now) ∧
    (isDigitToken tok = false → isValidObjectId tok = true →
      t.user_id = uid ∧ t.guild_id = gid ∧ t.id = tok) ∧
    (isDigitToken tok = false → isValidObjectId tok = false →
      t.user_id = uid ∧ t.guild_id = gid ∧ t.status = false ∧
      t.id.startsWith tok = true ∧ t ∈ db) := by
  refine ⟨?_, ?_, ?_⟩
  · intro hdig
    unfold resolveToken at h
    rw [if_pos hdig] at h
    split at h
    · split at h
      · exact List.get?_mem h
      · exact Option.noConfusion h
    · exact Option.noConfusion h
  · intro hdig hval
    unfold resolveToken at h
    rw [if_neg (by simp [hdig]), if_pos hval] at h
    split at h
    · rename_i c hfind
      split at h
      · rename_i hmatch
        injection h with h'
        subst h'
        have h2 := List.find?_some hfind
        simp only [Bool.and_eq_true, beq_iff_eq] at hmatch h2
        exact ⟨hmatch.1, hmatch.2, h2⟩
      · exact Option.noConfusion h
    · exact Option.noConfusion h
  · intro hdig hval
    unfold resolveToken at h
    rw [if_neg (by simp [hdig]), if_neg (by simp [hval])] at h
    have hmem := List.mem_of_find?_eq_some h
    have hpred := List.find?_some h
    rw [List.mem_filter] at hmem
    have hv := hmem.2
    unfold viewFilter at hv
    simp only [Bool.and_eq_true, beq_iff_eq] at hv
    exact ⟨hv.1.1, hv.1.2, hv.2, hpred, hmem.1⟩

/-- C5 witness: an open task resolved by its full ObjectId token satisfies
the ownership and scope guarantees of the exact-ID route. -/
theorem C5_resolver_scope_witness :
    task5w.user_id = 7 ∧ task5w.guild_id = some 3 ∧
      task5w.id = "abc0123456789abcdef01234" :=
  (C5_resolver_scope [task5w] 7 (some 3) 0 "abc0123456789abcdef01234" task5w
    (by decide)).2.1 (by decide) (by decide)

/-- C6: an edit supplying a new future deadline produces a task whose stored
deadline is the new value and whose sent labels are reset to empty, while the
custom reminders (each entry, including its sent flag) and every field not
named in the request are unchanged. -/
theorem C6_edit_deadline_resets (now : Int) (t : Task) (r : EditRequest) (d : Int)
    (hd : r.newDeadline = some d) (hfut : now < d) :
    (applyEdit now t r).map Task.deadline = some d ∧
    (applyEdit now t r).map Task.reminders_sent = some [] ∧
    (applyEdit now t r).map Task.custom_reminders = some t.custom_reminders ∧
    (applyEdit now t r).map Task.id = some t.id ∧
    (applyEdit now t r).map Task.user_id = some t.user_id ∧
    (applyEdit now t r).map Task.guild_id = some t.guild_id ∧
    (applyEdit now t r).map Task.status = some t.status ∧
    (applyEdit now t r).map Task.created_at = some t.created_at ∧
    (applyEdit now t r).map Task.assigned_users = some t.assigned_users ∧
    (truthy r.judul = false → (applyEdit now t r).map Task.judul = some t.judul) ∧
    (truthy r.deskripsi = false → (applyEdit now t r).map Task.deskripsi = some t.deskripsi) ∧
    (truthy r.tag = false → (applyEdit now t r).map Task.tag = some t.tag) := by
  have hgt : ¬ d ≤ now := by omega
  have happ : applyEdit now t r = some { t with
      judul := if truthy r.judul then r.judul.getD t.judul else t.judul
      deadline := d
      reminders_sent := []
      deskripsi := if truthy r.deskripsi then r.deskripsi else t.deskripsi
      tag := if truthy r.tag then r.tag.getD t.tag else t.tag } := by
    unfold applyEdit
    rw [hd, if_neg (by simp)]
    show (if d ≤ now then none else _) = _
    rw [if_neg hgt]
  rw [happ]
  refine ⟨rfl, rfl, rfl, rfl, rfl, rfl, rfl, rfl, rfl, ?_, ?_, ?_⟩
  · intro hj
    simp [hj]
  · intro hds
    simp [hds]
  · intro htg
    simp [htg]

/-- C6 witness: editing only the deadline of a task resets its sent labels. -/
theorem C6_edit_deadline_resets_witness :
    (applyEdit 0 task6 req6).map Task.reminders_sent = some [] :=
  (C6_edit_deadline_resets 0 task6 req6 900 rfl (by decide)).2.1

/-- C7: at every run instant of the weekly job (the cron trigger fires on
Sundays; the Monday case named by the claim is covered as well), the computed
window starts on a Monday at local midnight, ends on the following Saturday at
23:59:59, lies entirely in the past (it is the most recently *completed*
Monday–Saturday span: no later Monday-started span has already ended), and the
queried tasks are exactly those of the store whose deadline lies between the
UTC conversions of the window bounds — with no condition on completion
status. -/
theorem C7_weekly_window (nowLocal off : Int) (db : List Task) (t : Task)
    (hwd : (nowLocal.ediv 86400).emod 7 = 6 ∨ (nowLocal.ediv 86400).emod 7 = 0) :
    (computeWeekWindow nowLocal).1.emod 604800 = 0 ∧
    (computeWeekWindow nowLocal).2 = (computeWeekWindow nowLocal).1 + 5 * 86400 + 86399 ∧
    (computeWeekWindow nowLocal).2 < nowLocal ∧
    (∀ s', s'.emod 604800 = 0 → s' + 5 * 86400 + 86399 < nowLocal →
      s' ≤ (computeWeekWindow nowLocal).1) ∧
    (t ∈ weeklySummaryTasks db nowLocal off ↔
      (t ∈ db ∧ (computeWeekWindow nowLocal).1 - off ≤ t.deadline ∧
        t.deadline ≤ (computeWeekWindow nowLocal).2 - off)) := by
  have hiff : t ∈ weeklySummaryTasks db nowLocal off ↔
      (t ∈ db ∧ (computeWeekWindow nowLocal).1 - off ≤ t.deadline ∧
        t.deadline ≤ (computeWeekWindow nowLocal).2 - off) := by
    simp [weeklySummaryTasks, localToUtc, List.mem_filter]
  obtain ⟨D, hD⟩ : ∃ D, nowLocal.ediv 86400 = D := ⟨_, rfl⟩
  obtain ⟨T, hT⟩ : ∃ T, nowLocal.emod 86400 = T := ⟨_, rfl⟩
  have hN : 86400 * D + T = nowLocal := by
    rw [← hD, ← hT]
    exact Int.ediv_add_emod nowLocal 86400
  have htod0 : 0 ≤ T := by
    rw [← hT]
    exact Int.emod_nonneg nowLocal (by norm_num)
  have htod1 : T < 86400 := by
    rw [← hT]
    exact Int.emod_lt_of_pos nowLocal (by norm_num)
  obtain ⟨Q, hQ⟩ : ∃ Q, D.ediv 7 = Q := ⟨_, rfl⟩
  rcases hwd with hw | hw
  · have hdsm : daysSinceMonday nowLocal = 6 := by
      unfold daysSinceMonday
      rw [hw]
      norm_num
    have hD7 : 7 * Q + 6 = D := by
      rw [← hQ, ← hD]
      have h3 : 7 * ((nowLocal.ediv 86400).ediv 7) + (nowLocal.ediv 86400).emod 7 =
          nowLocal.ediv 86400 := Int.ediv_add_emod (nowLocal.ediv 86400) 7
      rw [hw] at h3
      exact h3
    have hstart : (computeWeekWindow nowLocal).1 = (D - 6) * 86400 := by
      unfold computeWeekWindow
      rw [hD, hdsm]
    have hend : (computeWeekWindow nowLocal).2 = (D - 6) * 86400 + 5 * 86400 + 86399 := by
      unfold computeWeekWindow
      rw [hD, hdsm]
    have hmul : (D - 6) * 86400 = 604800 * Q := by omega
    refine ⟨?_, ?_, ?_, fun s' h1 h2 => ?_, hiff⟩
    · rw [hstart, hmul]
      exact Int.mul_emod_right 604800 Q
    · rw [hstart, hend]
    · rw [hend]
      omega
    · rw [hstart]
      obtain ⟨K, hK⟩ : ∃ K, s'.ediv 604800 = K := ⟨_, rfl⟩
      have hS : 604800 * K = s' := by
        have h3 : 604800 * (s'.ediv 604800) + s'.emod 604800 = s' :=
          Int.ediv_add_emod s' 604800
        rw [h1, hK] at h3
        omega
      omega
  · have hdsm : daysSinceMonday nowLocal = 7 := by
      unfold daysSinceMonday
      rw [hw]
      norm_num
    have hD7 : 7 * Q = D := by
      have h4 : 7 * Q + 0 = D := by
        rw [← hQ, ← hD]
        have h3 : 7 * ((nowLocal.ediv 86400).ediv 7) + (nowLocal.ediv 86400).emod 7 =
            nowLocal.ediv 86400 := Int.ediv_add_emod (nowLocal.ediv 86400) 7
        rw [hw] at h3
        exact h3
      omega
    have hstart : (computeWeekWindow nowLocal).1 = (D - 7) * 86400 := by
      unfold computeWeekWindow
      rw [hD, hdsm]
    have hend : (computeWeekWindow nowLocal).2 = (D - 7) * 86400 + 5 * 86400 + 86399 := by
      unfold computeWeekWindow
      rw [hD, hdsm]
    have hmul : (D - 7) * 86400 = 604800 * (Q - 1) := by omega
    refine ⟨?_, ?_, ?_, fun s' h1 h2 => ?_, hiff⟩
    · rw [hstart, hmul]
      exact Int.mul_emod_right 604800 (Q - 1)
    · rw [hstart, hend]
    · rw [hend]
      omega
    · rw [hstart]
      obtain ⟨K, hK⟩ : ∃ K, s'.ediv 604800 = K := ⟨_, rfl⟩
      have hS : 604800 * K = s' := by
        have h3 : 604800 * (s'.ediv 604800) + s'.emod 604800 = s' :=
          Int.ediv_add_emod s' 604800
        rw [h1, hK] at h3
        omega
      omega

/-- C7 witness: a Sunday run includes a task whose deadline falls in the
just-completed Monday–Saturday window, although nothing about its status was
checked. -/
theorem C7_weekly_window_witness :
    task7 ∈ weeklySummaryTasks [task7] 518400 25200 :=
  (C7_weekly_window 518400 25200 [task7] task7 (Or.inl (by decide))).2.2.2.2.mpr
    (by decide)

end VeroBot
